import Mathlib

/-!
Verification of the Universal-disk-explorer thumbnail backend
(src/front-end/src-tauri/src/commands.rs and src/main.rs).

The development shallowly embeds the Rust code:

* The `f32` arithmetic of `get_thumbnail` (lines 36-38 of commands.rs:
  `let aspect_ratio = width as f32 / height as f32;`
  `let new_height = (new_width as f32 / aspect_ratio) as u32;`)
  is modelled exactly, in integer arithmetic: an IEEE-754 binary32 value is
  a dyadic pair `⟨m, e⟩` denoting `m * 2^e`; `u32 -> f32` conversion and
  `f32` division are correctly rounded to 24 significand bits with
  round-to-nearest, ties-to-even, which is exactly IEEE semantics in the
  range exercised here (no overflow, no subnormals: all quantities lie
  strictly between 2^-40 and 2^40).  The final `as u32` cast truncates
  toward zero and saturates at `u32::MAX`, as in Rust.

* The external collaborators (file system, image codec, Lanczos3 resampler,
  OS opener) are not code of this repository; they enter as explicit
  parameters (`Env`), and where a claim depends on their behaviour they are
  modelled from the spec (definitions marked `Modelled from the spec`).

* `base64::encode` (standard alphabet, with `=` padding) is implemented
  concretely and verified.
-/

/-- Number of binary digits of `n`, computed with explicit fuel so that it
is structurally recursive; `bl 64 n` is exact for every `n < 2^64`, which
covers every quantity appearing in the pipeline. -/
def bl : Nat → Nat → Nat
  | 0, _ => 0
  | f + 1, n => if n < 2 then n else bl f (n / 2) + 1

/-- Round `a / b` to the nearest integer, ties to even (`b ≥ 1`). -/
def rdivNE (a b : Nat) : Nat :=
  let q := a / b
  let r := a % b
  if b < 2 * r then q + 1
  else if 2 * r < b then q
  else if q % 2 = 0 then q else q + 1

/-- Round `n * 2^k / d` to the nearest integer, ties to even. -/
def shiftQ (n d : Nat) (k : ℤ) : Nat :=
  if 0 ≤ k then rdivNE (n * 2 ^ k.toNat) d else rdivNE n (d * 2 ^ (-k).toNat)

/-- Decide `d * 2^e ≤ n`, i.e. `2^e ≤ n / d`. -/
def le2 (d n : Nat) (e : ℤ) : Bool :=
  if 0 ≤ e then decide (d * 2 ^ e.toNat ≤ n) else decide (d ≤ n * 2 ^ (-e).toNat)

/-- An IEEE binary32 value, represented exactly as `m * 2^e`. -/
structure F32 where
  m : Nat
  e : ℤ
deriving DecidableEq

/-- The binade of the exact ratio `n / d` of two positive naturals: the
unique `e` with `2^e ≤ n/d < 2^(e+1)`, located from the bit lengths and
corrected by one comparison. -/
def fExp (n d : Nat) : ℤ :=
  if le2 d n ((bl 64 n : ℤ) - (bl 64 d : ℤ)) then (bl 64 n : ℤ) - (bl 64 d : ℤ)
  else (bl 64 n : ℤ) - (bl 64 d : ℤ) - 1

/-- Correctly rounded (nearest, ties to even) binary32 value of the exact
ratio `n / d` of two positive naturals: the result `⟨m, e⟩` denotes
`m * 2^e` with `2^23 ≤ m ≤ 2^24`. -/
def fdivRnd (n d : Nat) : F32 :=
  ⟨shiftQ n d (23 - fExp n d), fExp n d - 23⟩

/-- Rust `n as f32` for `n : u32` (round to nearest, ties to even). -/
def f32ofNat (n : Nat) : F32 := fdivRnd n 1

/-- Correctly rounded binary32 division. -/
def f32div (x y : F32) : F32 :=
  let z := fdivRnd x.m y.m
  ⟨z.m, z.e + x.e - y.e⟩

/-- Rust `v as u32` for a positive finite `f32` value: truncate toward
zero and saturate at `u32::MAX`. -/
def f32truncSat (x : F32) : Nat :=
  let v := if 0 ≤ x.e then x.m * 2 ^ x.e.toNat else x.m / 2 ^ (-x.e).toNat
  min v 4294967295

/-- The height computed by `get_thumbnail` (commands.rs lines 36-38) for a
source image of dimensions `w × h`:
`((100 : u32) as f32 / (w as f32 / h as f32)) as u32`.
The two branches for a zero dimension reproduce the Rust special values:
`h = 0` gives `w/0.0 = inf` (or `NaN` if also `w = 0`), and
`100/inf = 0.0` (`100/NaN = NaN`), both of which cast to `0`;
`w = 0, h > 0` gives aspect `0.0` and `100/0.0 = inf`, which saturates. -/
def newHeightF (w h : Nat) : Nat :=
  if h = 0 then 0
  else if w = 0 then 4294967295
  else f32truncSat (f32div (f32ofNat 100) (f32div (f32ofNat w) (f32ofNat h)))

example : newHeightF 500 500 = 100 := by decide
example : newHeightF 400 200 = 50 := by decide
example : newHeightF 333 100 = 30 := by decide
example : newHeightF 10000 1 = 0 := by decide
example : newHeightF 1 7 = 699 := by decide
example : newHeightF 2 7 = 349 := by decide
example : newHeightF 1 16777217 = 1677721600 := by decide

/-- A byte. -/
abbrev Byte := Fin 256

/-- Build a byte from a natural number, as Rust truncating conversion. -/
def mkByte (n : Nat) : Byte := ⟨n % 256, Nat.mod_lt n (by decide)⟩

/-- The standard base64 alphabet used by `base64::encode`. -/
def b64Alphabet : List Char :=
  "ABCDEFGHIJKLMNOPQRSTUVWXYZabcdefghijklmnopqrstuvwxyz0123456789+/".data

/-- Character for a 6-bit group. -/
def b64Char (n : Nat) : Char := b64Alphabet.getD n 'A'

/-- Standard base64 encoding with padding, three input bytes at a time,
as performed by the `base64::encode` call at commands.rs line 50. -/
def b64EncodeCore : List Byte → List Char
  | [] => []
  | [a] => [b64Char (a.val / 4), b64Char (a.val % 4 * 16), '=', '=']
  | [a, b] =>
      [b64Char (a.val / 4), b64Char (a.val % 4 * 16 + b.val / 16),
       b64Char (b.val % 16 * 4), '=']
  | a :: b :: c :: rest =>
      b64Char (a.val / 4) :: b64Char (a.val % 4 * 16 + b.val / 16) ::
      b64Char (b.val % 16 * 4 + c.val / 64) :: b64Char (c.val % 64) ::
      b64EncodeCore rest

/-- `base64::encode` as a string. -/
def b64Encode (bs : List Byte) : String := String.mk (b64EncodeCore bs)

/-- Value of a base64 digit (position in the alphabet). -/
def b64ValCore : List Char → Char → Nat
  | [], _ => 0
  | x :: xs, c => if c = x then 0 else b64ValCore xs c + 1

/-- Value of a base64 digit. -/
def b64Val (c : Char) : Nat := b64ValCore b64Alphabet c

/-- Standard base64 decoding, four characters at a time, honouring the
padding of the final group. -/
def b64DecodeCore : List Char → List Byte
  | a :: b :: c :: d :: rest =>
      if c = '=' then [mkByte (b64Val a * 4 + b64Val b / 16)]
      else if d = '=' then
        [mkByte (b64Val a * 4 + b64Val b / 16),
         mkByte (b64Val b % 16 * 16 + b64Val c / 4)]
      else
        mkByte (b64Val a * 4 + b64Val b / 16) ::
        mkByte (b64Val b % 16 * 16 + b64Val c / 4) ::
        mkByte (b64Val c % 4 * 64 + b64Val d) ::
        b64DecodeCore rest
  | _ => []

/-- Recognizer for base64 digits. -/
def isB64Digit (c : Char) : Bool := b64Alphabet.contains c

/-- Syntactic validity of standard base64 with padding: the character list
splits into four-character groups, every group before the last consists of
alphabet digits, and the final group is `dddd`, `ddd=` or `dd==`. -/
def b64ChunksOk : List Char → Bool
  | [] => true
  | [a, b, c, d] =>
      isB64Digit a && isB64Digit b &&
      ((isB64Digit c && (isB64Digit d || d = '=')) || (c = '=' && d = '='))
  | a :: b :: c :: d :: rest =>
      isB64Digit a && isB64Digit b && isB64Digit c && isB64Digit d &&
      b64ChunksOk rest
  | _ => false

/-- Syntactic validity of a base64 string. -/
def isB64Valid (s : String) : Bool := b64ChunksOk s.data

example : b64Encode [mkByte 77, mkByte 97, mkByte 110] = "TWFu" := by decide
example : b64Encode [mkByte 77, mkByte 97] = "TWE=" := by decide
example : b64Encode [mkByte 77] = "TQ==" := by decide
example : b64DecodeCore "TWFu".data = [mkByte 77, mkByte 97, mkByte 110] := by decide
example : b64DecodeCore "TQ==".data = [mkByte 77] := by decide
example : isB64Valid "TWFuTQ==" = true := by decide

/-- A decoded raster: dimensions plus abstract pixel payload
(the `DynamicImage` of the image crate, observed through
`GenericImageView.dimensions`). -/
structure Img where
  width : Nat
  height : Nat
  data : List Byte
deriving DecidableEq

/-- Structure returned by the thumbnail command (commands.rs lines 16-21).
`width` and `height` are `u32`. -/
structure ThumbnailResponse where
  data_url : String
  width : Nat
  height : Nat
deriving DecidableEq

/-- The external collaborators of the pipeline, as explicit parameters:
the file system (`ImageReader::open`, whose failure is the load error),
the image decoder (`decode`, whose failure is the decode error), the
Lanczos3 resampler pixel kernel (only the payload: `resize_exact` fixes
the dimensions itself and cannot fail), and the JPEG encoder (`write_to`,
whose failure is the encode error). -/
structure Env where
  openPath : String → Except String (List Byte)
  decodeBytes : List Byte → Except String Img
  resizeData : Img → Nat → Nat → List Byte
  encodeJpeg : Img → Except String (List Byte)

/-- `DynamicImage::resize_exact` (commands.rs line 41): returns a raster
of exactly the requested dimensions; it returns no `Result` and so cannot
fail, whatever the requested dimensions are. -/
def resize_exact (env : Env) (img : Img) (w h : Nat) : Img :=
  ⟨w, h, env.resizeData img w h⟩

/-- Translation of `get_thumbnail` (commands.rs lines 25-57). -/
def get_thumbnail (env : Env) (path : String) : Except String ThumbnailResponse :=
  match env.openPath path with
  | Except.error e => Except.error ("Failed to open image: " ++ e)
  | Except.ok raw =>
    match env.decodeBytes raw with
    | Except.error e => Except.error ("Failed to decode image: " ++ e)
    | Except.ok img =>
      let new_width := 100
      let new_height := newHeightF img.width img.height
      let thumbnail := resize_exact env img new_width new_height
      match env.encodeJpeg thumbnail with
      | Except.error e => Except.error ("Failed to encode thumbnail: " ++ e)
      | Except.ok bytes =>
        Except.ok ⟨"data:image/jpeg;base64," ++ b64Encode bytes, new_width, new_height⟩

/-- Translation of `get_thumbnail2` (main.rs lines 117-151), the duplicate
draft of the same pipeline kept in `main.rs`. -/
def get_thumbnail2 (env : Env) (path : String) : Except String ThumbnailResponse :=
  match env.openPath path with
  | Except.error e => Except.error ("Failed to open image: " ++ e)
  | Except.ok raw =>
    match env.decodeBytes raw with
    | Except.error e => Except.error ("Failed to decode image: " ++ e)
    | Except.ok img =>
      let new_width := 100
      let new_height := newHeightF img.width img.height
      let thumbnail := resize_exact env img new_width new_height
      match env.encodeJpeg thumbnail with
      | Except.error e => Except.error ("Failed to encode thumbnail: " ++ e)
      | Except.ok bytes =>
        Except.ok ⟨"data:image/jpeg;base64," ++ b64Encode bytes, new_width, new_height⟩

/-- The load-and-decode prefix of the pipeline: the raster `get_thumbnail`
measures, when both the open and the decode step succeed. -/
def decodePipeline (env : Env) (path : String) : Except String Img :=
  match env.openPath path with
  | Except.error e => Except.error e
  | Except.ok raw => env.decodeBytes raw

/-- The reported height of a successful call, if any. -/
def responseHeight : Except String ThumbnailResponse → Option Nat
  | Except.ok r => some r.height
  | Except.error _ => none

/-- Boolean string-prefix test, on the underlying character lists. -/
def strHasPrefix (p s : String) : Bool := p.data.isPrefixOf s.data

/-- The error kind of the load stage (commands.rs line 28). -/
def isLoadErr (s : String) : Bool := strHasPrefix "Failed to open image: " s

/-- The error kind of the decode stage (commands.rs line 30). -/
def isDecodeErr (s : String) : Bool := strHasPrefix "Failed to decode image: " s

/-- The error kind of the encode stage (commands.rs line 47). -/
def isEncodeErr (s : String) : Bool := strHasPrefix "Failed to encode thumbnail: " s

/-- Big-endian four-byte encoding of a `u32`-sized natural. -/
def natTo4 (n : Nat) : List Byte :=
  [mkByte (n / 16777216), mkByte (n / 65536), mkByte (n / 256), mkByte n]

/-- Value of four big-endian bytes. -/
def natOf4 (a b c d : Byte) : Nat :=
  a.val * 16777216 + b.val * 65536 + c.val * 256 + d.val

/-- The JPEG start-of-image marker bytes. -/
def jpegMagic : List Byte := [mkByte 255, mkByte 216]

/-- Modelled from the spec: the external JPEG encoder invoked by
`write_to(..., ImageOutputFormat::Jpeg(90))` — not code of this
repository.  Per spec section 4 step 5 and section 7, serialization to the
compressed format fails on degenerate input (in particular the
zero-height raster that an extremely wide source produces) and otherwise
yields a byte stream a decoder can load back at exactly the raster's
dimensions; the model serializes a marker, the dimensions and the
payload. -/
def specEncodeJpeg (img : Img) : Except String (List Byte) :=
  if img.width = 0 ∨ img.height = 0 then
    Except.error "invalid dimensions: zero width or height"
  else if 4294967295 < img.width ∨ 4294967295 < img.height then
    Except.error "image dimensions exceed u32"
  else
    Except.ok (jpegMagic ++ natTo4 img.width ++ natTo4 img.height ++ img.data)

/-- Modelled from the spec: the external image decoder invoked by
`ImageReader::decode` — not code of this repository.  Per spec section 4
step 1, bytes that are not a recognized, well-formed image encoding are
rejected, and any successfully decoded raster has positive width and
height (spec section 4 step 2); the model accepts exactly the streams
produced by `specEncodeJpeg`. -/
def specDecode (bs : List Byte) : Except String Img :=
  match bs with
  | m1 :: m2 :: w1 :: w2 :: w3 :: w4 :: h1 :: h2 :: h3 :: h4 :: data =>
      if m1 = mkByte 255 ∧ m2 = mkByte 216 then
        if natOf4 w1 w2 w3 w4 = 0 ∨ natOf4 h1 h2 h3 h4 = 0 then
          Except.error "zero dimension in image header"
        else
          Except.ok ⟨natOf4 w1 w2 w3 w4, natOf4 h1 h2 h3 h4, data⟩
      else Except.error "unrecognized image format"
  | _ => Except.error "unrecognized image format"

/-- Whether the process finished the command normally or aborted with a
panic (the observable effect of `.unwrap()` on an error). -/
inductive ProcOutcome
  | normal
  | panicked
deriving DecidableEq

/-- Components of a Unix-style path: split at every separator. -/
def splitSlash : List Char → List Char → List (List Char)
  | [], acc => [acc.reverse]
  | c :: rest, acc =>
      if c = '/' then acc.reverse :: splitSlash rest [] else splitSlash rest (c :: acc)

/-- Non-empty components of a path string. -/
def pathComponents (s : String) : List (List Char) :=
  (splitSlash s.data []).filter (fun c => !c.isEmpty)

/-- Whether a path string is absolute. -/
def isAbsolutePath (s : String) : Bool :=
  match s.data with
  | c :: _ => c = '/'
  | [] => false

/-- Concatenate components with separators. -/
def joinSlash : List (List Char) → List Char
  | [] => []
  | [c] => c
  | c :: rest => c ++ '/' :: joinSlash rest

/-- Modelled from the spec and the standard library contract: Rust
`std::path::Path::parent` for Unix-style paths — not code of this
repository.  It is `None` exactly when the path has no non-root
component (the empty path or a bare root such as the path consisting of
one separator), and otherwise drops the final component. -/
def pathParent (s : String) : Option String :=
  let comps := pathComponents s
  if comps.isEmpty then none
  else
    some (String.mk ((if isAbsolutePath s then ['/'] else []) ++ joinSlash comps.dropLast))

/-- Translation of `open_file` (commands.rs lines 87-89):
`opener::open(path).unwrap()` — an opener failure panics the process.
The OS opener is an external collaborator and enters as a parameter. -/
def open_file (opener : String → Except String Unit) (path : String) : ProcOutcome :=
  match opener path with
  | Except.ok _ => ProcOutcome.normal
  | Except.error _ => ProcOutcome.panicked

/-- Translation of `open_file_folder` (commands.rs lines 92-96): derive
the parent directory and, when it exists, call the opener on it with
`let _ = ...`, discarding any failure; in every case the function returns
normally.  (`parent.to_str().unwrap()` cannot panic: the parent of a
valid UTF-8 string path is valid UTF-8.) -/
def open_file_folder (opener : String → Except String Unit) (path : String) : ProcOutcome :=
  match pathParent path with
  | some parent =>
      match opener parent with
      | _ => ProcOutcome.normal
  | none => ProcOutcome.normal

example : pathParent "/" = none := by decide
example : pathParent "" = none := by decide
example : pathParent "/a/b" = some "/a" := by decide
example : pathParent "/a" = some "/" := by decide
example : pathParent "a" = some "" := by decide
example : pathParent "a/b" = some "a" := by decide

theorem b64Char_digit {n : Nat} (h : n < 64) : isB64Digit (b64Char n) = true := by
  have hall : ∀ m : Fin 64, isB64Digit (b64Char m.val) = true := by decide
  exact hall ⟨n, h⟩

theorem b64Char_ne_pad {n : Nat} (h : n < 64) : ¬ (b64Char n = '=') := by
  have hall : ∀ m : Fin 64, ¬ (b64Char m.val = '=') := by decide
  exact hall ⟨n, h⟩

theorem b64Val_char {n : Nat} (h : n < 64) : b64Val (b64Char n) = n := by
  have hall : ∀ m : Fin 64, b64Val (b64Char m.val) = m.val := by decide
  exact hall ⟨n, h⟩

theorem b64EncodeCore_shape (r : Byte) (rs : List Byte) :
    ∃ p q u v t, b64EncodeCore (r :: rs) = p :: q :: u :: v :: t := by
  match rs with
  | [] => exact ⟨_, _, _, _, _, rfl⟩
  | [s] => exact ⟨_, _, _, _, _, rfl⟩
  | s :: w :: ws => exact ⟨_, _, _, _, _, rfl⟩

theorem b64ChunksOk_encode : ∀ bs : List Byte, b64ChunksOk (b64EncodeCore bs) = true
  | [] => rfl
  | [a] => by
      have h1 := b64Char_digit (n := a.val / 4) (by omega)
      have h2 := b64Char_digit (n := a.val % 4 * 16) (by omega)
      simp [b64EncodeCore, b64ChunksOk, h1, h2]
  | [a, b] => by
      have h1 := b64Char_digit (n := a.val / 4) (by omega)
      have h2 := b64Char_digit (n := a.val % 4 * 16 + b.val / 16) (by omega)
      have h3 := b64Char_digit (n := b.val % 16 * 4) (by omega)
      simp [b64EncodeCore, b64ChunksOk, h1, h2, h3]
  | a :: b :: c :: d :: rest => by
      have h1 := b64Char_digit (n := a.val / 4) (by omega)
      have h2 := b64Char_digit (n := a.val % 4 * 16 + b.val / 16) (by omega)
      have h3 := b64Char_digit (n := b.val % 16 * 4 + c.val / 64) (by omega)
      have h4 := b64Char_digit (n := c.val % 64) (by omega)
      obtain ⟨p, q, u, v, t, hsh⟩ := b64EncodeCore_shape d rest
      have ih := b64ChunksOk_encode (d :: rest)
      simp only [b64EncodeCore]
      rw [hsh] at ih ⊢
      simp [b64ChunksOk, h1, h2, h3, h4, ih]
  | [a, b, c] => by
      have h1 := b64Char_digit (n := a.val / 4) (by omega)
      have h2 := b64Char_digit (n := a.val % 4 * 16 + b.val / 16) (by omega)
      have h3 := b64Char_digit (n := b.val % 16 * 4 + c.val / 64) (by omega)
      have h4 := b64Char_digit (n := c.val % 64) (by omega)
      simp [b64EncodeCore, b64ChunksOk, h1, h2, h3, h4]

theorem mkByte_val (a : Byte) : mkByte a.val = a := by
  apply Fin.ext
  simp [mkByte, Nat.mod_eq_of_lt a.isLt]

theorem b64Decode_encode : ∀ bs : List Byte, b64DecodeCore (b64EncodeCore bs) = bs
  | [] => rfl
  | [a] => by
      have hv1 := b64Val_char (n := a.val / 4) (by omega)
      have hv2 := b64Val_char (n := a.val % 4 * 16) (by omega)
      simp only [b64EncodeCore, b64DecodeCore, if_pos rfl, hv1, hv2]
      have : a.val / 4 * 4 + a.val % 4 * 16 / 16 = a.val := by omega
      rw [if_pos trivial, this, mkByte_val]
  | [a, b] => by
      have hv1 := b64Val_char (n := a.val / 4) (by omega)
      have hv2 := b64Val_char (n := a.val % 4 * 16 + b.val / 16) (by omega)
      have hv3 := b64Val_char (n := b.val % 16 * 4) (by omega)
      have hne := b64Char_ne_pad (n := b.val % 16 * 4) (by omega)
      simp only [b64EncodeCore, b64DecodeCore, if_neg hne, if_pos rfl, hv1, hv2, hv3]
      have e1 : (a.val / 4) * 4 + (a.val % 4 * 16 + b.val / 16) / 16 = a.val := by omega
      have e2 : (a.val % 4 * 16 + b.val / 16) % 16 * 16 + b.val % 16 * 4 / 4 = b.val := by
        omega
      rw [if_pos trivial, e1, e2, mkByte_val, mkByte_val]
  | a :: b :: c :: d :: rest => by
      have hv1 := b64Val_char (n := a.val / 4) (by omega)
      have hv2 := b64Val_char (n := a.val % 4 * 16 + b.val / 16) (by omega)
      have hv3 := b64Val_char (n := b.val % 16 * 4 + c.val / 64) (by omega)
      have hv4 := b64Val_char (n := c.val % 64) (by omega)
      have hne3 := b64Char_ne_pad (n := b.val % 16 * 4 + c.val / 64) (by omega)
      have hne4 := b64Char_ne_pad (n := c.val % 64) (by omega)
      have ih := b64Decode_encode (d :: rest)
      simp only [b64EncodeCore, b64DecodeCore, if_neg hne3, if_neg hne4, hv1, hv2, hv3, hv4]
      have e1 : (a.val / 4) * 4 + (a.val % 4 * 16 + b.val / 16) / 16 = a.val := by omega
      have e2 : (a.val % 4 * 16 + b.val / 16) % 16 * 16 +
          (b.val % 16 * 4 + c.val / 64) / 4 = b.val := by omega
      have e3 : (b.val % 16 * 4 + c.val / 64) % 4 * 64 + c.val % 64 = c.val := by omega
      rw [e1, e2, e3, mkByte_val, mkByte_val, mkByte_val, ih]
  | [a, b, c] => by
      have hv1 := b64Val_char (n := a.val / 4) (by omega)
      have hv2 := b64Val_char (n := a.val % 4 * 16 + b.val / 16) (by omega)
      have hv3 := b64Val_char (n := b.val % 16 * 4 + c.val / 64) (by omega)
      have hv4 := b64Val_char (n := c.val % 64) (by omega)
      have hne3 := b64Char_ne_pad (n := b.val % 16 * 4 + c.val / 64) (by omega)
      have hne4 := b64Char_ne_pad (n := c.val % 64) (by omega)
      simp only [b64EncodeCore, b64DecodeCore, if_neg hne3, if_neg hne4, hv1, hv2, hv3, hv4]
      have e1 : (a.val / 4) * 4 + (a.val % 4 * 16 + b.val / 16) / 16 = a.val := by omega
      have e2 : (a.val % 4 * 16 + b.val / 16) % 16 * 16 +
          (b.val % 16 * 4 + c.val / 64) / 4 = b.val := by omega
      have e3 : (b.val % 16 * 4 + c.val / 64) % 4 * 64 + c.val % 64 = c.val := by omega
      rw [e1, e2, e3, mkByte_val, mkByte_val, mkByte_val]


theorem rdivNE_one (a : Nat) : rdivNE a 1 = a := by
  simp [rdivNE, Nat.mod_one, Nat.div_one]

theorem rdivNE_ge_one {a b : Nat} (hb : 0 < b) (hba : b ≤ a) : 1 ≤ rdivNE a b := by
  have hq : 1 ≤ a / b := (Nat.one_le_div_iff hb).mpr hba
  unfold rdivNE
  dsimp only
  split
  · omega
  · split
    · omega
    · split <;> omega

theorem bl_lower : ∀ (f n : Nat), 1 ≤ n → 2 ^ (bl f n - 1) ≤ n := by
  intro f
  induction f with
  | zero => intro n hn; simpa [bl] using hn
  | succ f ih =>
      intro n hn
      by_cases h2 : n < 2
      · have : n = 1 := by omega
        subst this
        simp [bl]
      · have hrec : bl (f + 1) n = bl f (n / 2) + 1 := by
          simp [bl, h2]
        rw [hrec]
        have hhalf : 1 ≤ n / 2 := by omega
        have ihh := ih (n / 2) hhalf
        have hk : 2 ^ bl f (n / 2) ≤ n := by
          rcases Nat.eq_zero_or_pos (bl f (n / 2)) with hz | hp
          · simpa [hz] using (by omega : 1 ≤ n)
          · have hsp : bl f (n / 2) - 1 + 1 = bl f (n / 2) := by omega
            have hdouble : 2 ^ bl f (n / 2) = 2 ^ (bl f (n / 2) - 1) * 2 := by
              rw [← pow_succ, hsp]
            rw [hdouble]
            omega
        simpa using hk

theorem fExp_le {n : Nat} : fExp n 1 ≤ (bl 64 n : ℤ) - 1 := by
  unfold fExp
  have hbl1 : bl 64 1 = 1 := rfl
  rw [hbl1]
  split <;> omega

theorem f32ofNat_m_pos {n : Nat} (hn : 1 ≤ n) : 1 ≤ (f32ofNat n).m := by
  unfold f32ofNat fdivRnd
  dsimp only
  have hece : fExp n 1 ≤ (bl 64 n : ℤ) - 1 := fExp_le
  unfold shiftQ
  split
  · rw [rdivNE_one]
    have hpow : 0 < 2 ^ ((23 : ℤ) - fExp n 1).toNat := Nat.pos_pow_of_pos _ (by omega)
    calc 1 ≤ n := hn
      _ ≤ n * 2 ^ ((23 : ℤ) - fExp n 1).toNat := Nat.le_mul_of_pos_right n hpow
  · rename_i hneg
    apply rdivNE_ge_one
    · have : 0 < 2 ^ (-((23 : ℤ) - fExp n 1)).toNat := Nat.pos_pow_of_pos _ (by omega)
      omega
    · have hgt : (23 : ℤ) < fExp n 1 := by omega
      have hblbig : (24 : ℤ) ≤ (bl 64 n : ℤ) := by omega
      have hexp : (-((23 : ℤ) - fExp n 1)).toNat ≤ bl 64 n - 1 := by omega
      calc 1 * 2 ^ (-((23 : ℤ) - fExp n 1)).toNat
            = 2 ^ (-((23 : ℤ) - fExp n 1)).toNat := Nat.one_mul _
        _ ≤ 2 ^ (bl 64 n - 1) := Nat.pow_le_pow_right (by omega) hexp
        _ ≤ n := bl_lower 64 n hn

theorem fExp_self {m : Nat} : fExp m m = 0 := by
  unfold fExp
  have h0 : (bl 64 m : ℤ) - (bl 64 m : ℤ) = 0 := by omega
  rw [h0]
  have hle : le2 m m 0 = true := by
    unfold le2
    rw [if_pos (by omega)]
    simp
  rw [if_pos hle]

theorem fdivRnd_self {m : Nat} (hm : 1 ≤ m) : fdivRnd m m = ⟨8388608, -23⟩ := by
  unfold fdivRnd
  rw [fExp_self]
  have hsq : shiftQ m m (23 - 0) = 8388608 := by
    unfold shiftQ
    rw [if_pos (by omega)]
    unfold rdivNE
    dsimp only
    have ht : ((23 : ℤ) - 0).toNat = 23 := by omega
    have hdiv : m * 2 ^ ((23 : ℤ) - 0).toNat / m = 8388608 := by
      rw [ht, Nat.mul_div_cancel_left _ (by omega)]
      norm_num
    have hmod : m * 2 ^ ((23 : ℤ) - 0).toNat % m = 0 := Nat.mul_mod_right _ _
    rw [hdiv, hmod]
    norm_num
  rw [hsq]
  norm_num

theorem f32div_self {x : F32} (hx : 1 ≤ x.m) : f32div x x = ⟨8388608, -23⟩ := by
  unfold f32div
  rw [fdivRnd_self hx]
  dsimp only
  simp only [F32.mk.injEq]
  exact ⟨trivial, by ring⟩

theorem newHeightF_square {N : Nat} (hN : 1 ≤ N) : newHeightF N N = 100 := by
  unfold newHeightF
  rw [if_neg (by omega), if_neg (by omega)]
  rw [f32div_self (f32ofNat_m_pos hN)]
  decide

theorem newHeightF_le (w h : Nat) : newHeightF w h ≤ 4294967295 := by
  unfold newHeightF
  split
  · omega
  · split
    · omega
    · exact Nat.min_le_right _ _

theorem get_thumbnail_open_err {env : Env} {path e : String}
    (h : env.openPath path = Except.error e) :
    get_thumbnail env path = Except.error ("Failed to open image: " ++ e) := by
  unfold get_thumbnail
  rw [h]

theorem get_thumbnail_decode_err {env : Env} {path e : String} {raw : List Byte}
    (ho : env.openPath path = Except.ok raw)
    (hd : env.decodeBytes raw = Except.error e) :
    get_thumbnail env path = Except.error ("Failed to decode image: " ++ e) := by
  unfold get_thumbnail
  rw [ho]
  dsimp only
  rw [hd]

theorem get_thumbnail_encode_err {env : Env} {path e : String} {raw : List Byte} {img : Img}
    (ho : env.openPath path = Except.ok raw)
    (hd : env.decodeBytes raw = Except.ok img)
    (he : env.encodeJpeg (resize_exact env img 100 (newHeightF img.width img.height)) =
      Except.error e) :
    get_thumbnail env path = Except.error ("Failed to encode thumbnail: " ++ e) := by
  unfold get_thumbnail
  rw [ho]
  dsimp only
  rw [hd]
  dsimp only
  rw [he]

theorem get_thumbnail_ok_elim {env : Env} {path : String} {r : ThumbnailResponse}
    (h : get_thumbnail env path = Except.ok r) :
    ∃ raw img bytes, env.openPath path = Except.ok raw ∧
      env.decodeBytes raw = Except.ok img ∧
      env.encodeJpeg (resize_exact env img 100 (newHeightF img.width img.height)) =
        Except.ok bytes ∧
      r = ⟨"data:image/jpeg;base64," ++ b64Encode bytes, 100,
           newHeightF img.width img.height⟩ := by
  unfold get_thumbnail at h
  cases ho : env.openPath path with
  | error e => rw [ho] at h; exact absurd h (by simp)
  | ok raw =>
    rw [ho] at h
    dsimp only at h
    cases hd : env.decodeBytes raw with
    | error e => rw [hd] at h; exact absurd h (by simp)
    | ok img =>
      rw [hd] at h
      dsimp only at h
      cases he : env.encodeJpeg (resize_exact env img 100 (newHeightF img.width img.height)) with
      | error e => rw [he] at h; exact absurd h (by simp)
      | ok bytes =>
        rw [he] at h
        dsimp only at h
        refine ⟨raw, img, bytes, rfl, hd, he, ?_⟩
        exact (Except.ok.inj h).symm

theorem strHasPrefix_append (p e : String) : strHasPrefix p (p ++ e) = true := by
  unfold strHasPrefix
  rw [String.data_append]
  exact List.isPrefixOf_iff_prefix.mpr (List.prefix_append _ _)

theorem prefix_excl {p q s : String} (hlen : p.data.length ≤ q.data.length)
    (hnp : p.data.isPrefixOf q.data = false)
    (hp : strHasPrefix p s = true) (hq : strHasPrefix q s = true) : False := by
  unfold strHasPrefix at hp hq
  have h1 := List.isPrefixOf_iff_prefix.mp hp
  have h2 := List.isPrefixOf_iff_prefix.mp hq
  have h3 := List.prefix_of_prefix_length_le h1 h2 hlen
  have h4 : p.data.isPrefixOf q.data = true := List.isPrefixOf_iff_prefix.mpr h3
  rw [h4] at hnp
  exact absurd hnp (by simp)

theorem stage_excl (s : String) :
    (isLoadErr s = true → isDecodeErr s = false ∧ isEncodeErr s = false) ∧
    (isDecodeErr s = true → isLoadErr s = false ∧ isEncodeErr s = false) ∧
    (isEncodeErr s = true → isLoadErr s = false ∧ isDecodeErr s = false) := by
  refine ⟨fun h1 => ⟨?_, ?_⟩, fun h2 => ⟨?_, ?_⟩, fun h3 => ⟨?_, ?_⟩⟩
  · cases h : isDecodeErr s with
    | false => rfl
    | true => exact absurd (prefix_excl (by decide) (by decide) h1 h) (fun x => x)
  · cases h : isEncodeErr s with
    | false => rfl
    | true => exact absurd (prefix_excl (by decide) (by decide) h1 h) (fun x => x)
  · cases h : isLoadErr s with
    | false => rfl
    | true => exact absurd (prefix_excl (by decide) (by decide) h h2) (fun x => x)
  · cases h : isEncodeErr s with
    | false => rfl
    | true => exact absurd (prefix_excl (by decide) (by decide) h2 h) (fun x => x)
  · cases h : isLoadErr s with
    | false => rfl
    | true => exact absurd (prefix_excl (by decide) (by decide) h h3) (fun x => x)
  · cases h : isDecodeErr s with
    | false => rfl
    | true => exact absurd (prefix_excl (by decide) (by decide) h h3) (fun x => x)

theorem get_thumbnail_err_elim {env : Env} {path m : String}
    (h : get_thumbnail env path = Except.error m) :
    isLoadErr m = true ∨ isDecodeErr m = true ∨ isEncodeErr m = true := by
  unfold get_thumbnail at h
  cases ho : env.openPath path with
  | error e =>
      rw [ho] at h
      dsimp only at h
      rw [← Except.error.inj h]
      exact Or.inl (strHasPrefix_append _ _)
  | ok raw =>
    rw [ho] at h
    dsimp only at h
    cases hd : env.decodeBytes raw with
    | error e =>
        rw [hd] at h
        dsimp only at h
        rw [← Except.error.inj h]
        exact Or.inr (Or.inl (strHasPrefix_append _ _))
    | ok img =>
      rw [hd] at h
      dsimp only at h
      cases he : env.encodeJpeg (resize_exact env img 100 (newHeightF img.width img.height)) with
      | error e =>
          rw [he] at h
          dsimp only at h
          rw [← Except.error.inj h]
          exact Or.inr (Or.inr (strHasPrefix_append _ _))
      | ok bytes =>
          rw [he] at h
          exact absurd h (by simp)

theorem natOf4_natTo4 {n : Nat} (h : n < 4294967296) :
    natOf4 (mkByte (n / 16777216)) (mkByte (n / 65536)) (mkByte (n / 256)) (mkByte n) = n := by
  unfold natOf4 mkByte
  dsimp only
  omega

theorem specDecode_specEncode {img : Img} {bytes : List Byte}
    (h : specEncodeJpeg img = Except.ok bytes) : specDecode bytes = Except.ok img := by
  unfold specEncodeJpeg at h
  by_cases hz : img.width = 0 ∨ img.height = 0
  · rw [if_pos hz] at h
    exact absurd h (by simp)
  · rw [if_neg hz] at h
    by_cases hb : 4294967295 < img.width ∨ 4294967295 < img.height
    · rw [if_pos hb] at h
      exact absurd h (by simp)
    · rw [if_neg hb] at h
      have hbytes := (Except.ok.inj h).symm
      subst hbytes
      have hw : img.width < 4294967296 := by omega
      have hh : img.height < 4294967296 := by omega
      simp only [jpegMagic, natTo4, List.cons_append, List.nil_append]
      unfold specDecode
      dsimp only
      rw [if_pos ⟨rfl, rfl⟩]
      rw [natOf4_natTo4 hw, natOf4_natTo4 hh]
      rw [if_neg hz]

theorem specEncodeJpeg_ok_dims {img : Img} {bytes : List Byte}
    (h : specEncodeJpeg img = Except.ok bytes) :
    0 < img.width ∧ 0 < img.height ∧ img.width ≤ 4294967295 ∧ img.height ≤ 4294967295 := by
  unfold specEncodeJpeg at h
  by_cases hz : img.width = 0 ∨ img.height = 0
  · rw [if_pos hz] at h
    exact absurd h (by simp)
  · rw [if_neg hz] at h
    by_cases hb : 4294967295 < img.width ∨ 4294967295 < img.height
    · rw [if_pos hb] at h
      exact absurd h (by simp)
    · omega

/-- A file whose bytes decode (under the modelled codec) to a raster of
dimensions 1 × 7: the smallest source size on which the single-precision
height computation differs from the exact integer formula. -/
def tallFile : List Byte := jpegMagic ++ natTo4 1 ++ natTo4 7

/-- A file whose bytes decode (under the modelled codec) to a raster of
dimensions 10000 × 1, the spec's extremely wide example with derived
height 0. -/
def wideFile : List Byte := jpegMagic ++ natTo4 10000 ++ natTo4 1

/-- Concrete environment: every path holds `tallFile`, codec modelled from
the spec, resampler payload irrelevant. -/
def envTall : Env := ⟨fun _ => Except.ok tallFile, specDecode, fun _ _ _ => [], specEncodeJpeg⟩

/-- Concrete environment: every path holds `wideFile`. -/
def envWide : Env := ⟨fun _ => Except.ok wideFile, specDecode, fun _ _ _ => [], specEncodeJpeg⟩

/-- Concrete environment: the file system refuses every path. -/
def envMissing : Env :=
  ⟨fun _ => Except.error "No such file or directory (os error 2)", specDecode,
   fun _ _ _ => [], specEncodeJpeg⟩

/-- Concrete environment: every path holds bytes that are not a valid
image (ASCII text), codec modelled from the spec. -/
def envText : Env :=
  ⟨fun _ => Except.ok [mkByte 104, mkByte 105], specDecode, fun _ _ _ => [], specEncodeJpeg⟩

instance decEqExcept {ε α : Type} [DecidableEq ε] [DecidableEq α] :
    DecidableEq (Except ε α)
  | Except.ok a, Except.ok b =>
      if h : a = b then isTrue (congrArg Except.ok h)
      else isFalse (fun hc => h (Except.ok.inj hc))
  | Except.error a, Except.error b =>
      if h : a = b then isTrue (congrArg Except.error h)
      else isFalse (fun hc => h (Except.error.inj hc))
  | Except.ok _, Except.error _ => isFalse (fun hc => Except.noConfusion hc)
  | Except.error _, Except.ok _ => isFalse (fun hc => Except.noConfusion hc)

/-- C1 (counterexample): through the full pipeline, a valid 1 × 7 source
image yields reported height 699, while floor(W * B / A) = floor(100 * 7 / 1)
is 700: the single-precision computation at commands.rs lines 36-38 falls
one short of the exact integer formula the claim states. -/
theorem C1_counterexample :
    responseHeight (get_thumbnail envTall "/photos/tall.png") = some 699 ∧
    100 * 7 / 1 = 700 := by
  constructor
  · decide
  · decide

/-- C1 (amended): every successful call reports width 100 and height
exactly `newHeightF w h`, the truncation toward zero of the f32 value
`100.0 / (w as f32 / h as f32)`; this agrees with floor(100 * B / A) on the
claim's cited examples — every square N × N yields 100 × 100, 400 × 200
yields 50, 333 × 100 yields 30 — but not universally: a 1 × 7 source yields
699 while floor(100 * 7 / 1) = 700. -/
theorem C1_height_formula :
    (∀ (env : Env) (path : String) (img : Img) (r : ThumbnailResponse),
        decodePipeline env path = Except.ok img →
        get_thumbnail env path = Except.ok r →
        r.width = 100 ∧ r.height = newHeightF img.width img.height) ∧
    (∀ N : Nat, 1 ≤ N → newHeightF N N = 100) ∧
    newHeightF 400 200 = 50 ∧ newHeightF 333 100 = 30 ∧
    (newHeightF 1 7 = 699 ∧ 100 * 7 / 1 = 700) := by
  refine ⟨?_, fun N hN => newHeightF_square hN, by decide, by decide, by decide, by decide⟩
  intro env path img r hdec hok
  obtain ⟨raw, img2, bytes, ho, hd, he, hr⟩ := get_thumbnail_ok_elim hok
  unfold decodePipeline at hdec
  rw [ho] at hdec
  dsimp only at hdec
  have himg : img2 = img := Except.ok.inj (hd.symm.trans hdec)
  subst himg
  rw [hr]
  exact ⟨rfl, rfl⟩

/-- C1 (witness): the amended theorem applied at concrete inputs: the
square case at N = 5, and the pipeline case at the concrete 1 × 7
environment. -/
theorem C1_height_formula_witness :
    newHeightF 5 5 = 100 ∧
    (⟨"data:image/jpeg;base64," ++ b64Encode (jpegMagic ++ natTo4 100 ++ natTo4 699 ++ []),
      100, 699⟩ : ThumbnailResponse).width = 100 := by
  constructor
  · exact C1_height_formula.2.1 5 (by decide)
  · exact (C1_height_formula.1 envTall "/photos/tall.png" ⟨1, 7, []⟩ _
      (by decide) (by decide)).1

/-- C2 (counterexample): on the spec's own 10000 × 1 input the pipeline
returns the encode-stage error (the zero-height raster is rejected by the
encoder), not a distinct resize failure kind: `get_thumbnail` has no
resize error at all, since `resize_exact` (commands.rs line 41) returns no
`Result`, and the returned message carries the encode-stage prefix and
neither of the other two. -/
theorem C2_counterexample :
    get_thumbnail envWide "/photos/wide.png" =
      Except.error ("Failed to encode thumbnail: " ++ "invalid dimensions: zero width or height") ∧
    isEncodeErr ("Failed to encode thumbnail: " ++ "invalid dimensions: zero width or height")
      = true ∧
    isLoadErr ("Failed to encode thumbnail: " ++ "invalid dimensions: zero width or height")
      = false ∧
    isDecodeErr ("Failed to encode thumbnail: " ++ "invalid dimensions: zero width or height")
      = false := by
  refine ⟨by decide, by decide, by decide, by decide⟩

/-- C2 (amended): an image whose computed target height is 0 makes the
encoding step fail (under the spec-modelled encoder, which rejects a
zero-dimension raster); the failure surfaces as the encode-stage error —
`get_thumbnail` never crashes and never returns a zero-dimension success,
but the error is the `Failed to encode thumbnail` kind, not a distinct
`ResizeError`, which the code does not have. -/
theorem C2_zero_height_encode_error :
    ∀ (env : Env) (path : String) (img : Img),
      decodePipeline env path = Except.ok img →
      env.encodeJpeg = specEncodeJpeg →
      newHeightF img.width img.height = 0 →
      get_thumbnail env path =
        Except.error ("Failed to encode thumbnail: " ++ "invalid dimensions: zero width or height") ∧
      isEncodeErr ("Failed to encode thumbnail: " ++ "invalid dimensions: zero width or height")
        = true := by
  intro env path img hdec henc hzero
  unfold decodePipeline at hdec
  cases ho : env.openPath path with
  | error e => rw [ho] at hdec; exact absurd hdec (by simp)
  | ok raw =>
    rw [ho] at hdec
    dsimp only at hdec
    have he : env.encodeJpeg (resize_exact env img 100 (newHeightF img.width img.height)) =
        Except.error "invalid dimensions: zero width or height" := by
      rw [henc]
      unfold specEncodeJpeg resize_exact
      dsimp only
      rw [if_pos (Or.inr hzero)]
    exact ⟨get_thumbnail_encode_err ho hdec he, strHasPrefix_append _ _⟩

/-- C2 (witness): the amended theorem applied to the concrete 10000 × 1
environment. -/
theorem C2_zero_height_encode_error_witness :
    get_thumbnail envWide "/photos/wide.png" =
      Except.error ("Failed to encode thumbnail: " ++ "invalid dimensions: zero width or height") :=
  (C2_zero_height_encode_error envWide "/photos/wide.png" ⟨10000, 1, []⟩
    (by decide) rfl (by decide)).1

/-- C3: an open failure produces the load-stage error message verbatim
prefixed with `Failed to open image: `, a decode failure (after a
successful open) produces the decode-stage message prefixed with
`Failed to decode image: `, the model is a total function (no crash), and
the two kinds are mutually exclusive, hence distinguishable. -/
theorem C3_load_decode_errors :
    (∀ (env : Env) (path e : String), env.openPath path = Except.error e →
        get_thumbnail env path = Except.error ("Failed to open image: " ++ e) ∧
        isLoadErr ("Failed to open image: " ++ e) = true) ∧
    (∀ (env : Env) (path e : String) (raw : List Byte),
        env.openPath path = Except.ok raw → env.decodeBytes raw = Except.error e →
        get_thumbnail env path = Except.error ("Failed to decode image: " ++ e) ∧
        isDecodeErr ("Failed to decode image: " ++ e) = true) ∧
    (∀ s : String, isLoadErr s = true → isDecodeErr s = false) ∧
    (∀ s : String, isDecodeErr s = true → isLoadErr s = false) := by
  refine ⟨?_, ?_, ?_, ?_⟩
  · intro env path e h
    exact ⟨get_thumbnail_open_err h, strHasPrefix_append _ _⟩
  · intro env path e raw ho hd
    exact ⟨get_thumbnail_decode_err ho hd, strHasPrefix_append _ _⟩
  · intro s h
    exact ((stage_excl s).1 h).1
  · intro s h
    exact ((stage_excl s).2.1 h).1

/-- C3 (witness): a missing file yields the load error; a text file
(bytes that are not an image) yields the decode error. -/
theorem C3_load_decode_errors_witness :
    get_thumbnail envMissing "/missing.png" =
      Except.error ("Failed to open image: " ++ "No such file or directory (os error 2)") ∧
    get_thumbnail envText "/fake.jpg" =
      Except.error ("Failed to decode image: " ++ "unrecognized image format") := by
  constructor
  · exact (C3_load_decode_errors.1 envMissing "/missing.png"
      "No such file or directory (os error 2)" rfl).1
  · exact (C3_load_decode_errors.2.1 envText "/fake.jpg" "unrecognized image format"
      [mkByte 104, mkByte 105] rfl (by decide)).1

/-- The response the pipeline produces for the concrete 1 × 7 source. -/
def tallResponse : ThumbnailResponse :=
  ⟨"data:image/jpeg;base64," ++ b64Encode (jpegMagic ++ natTo4 100 ++ natTo4 699 ++ []),
   100, 699⟩

/-- C4: whenever `get_thumbnail` succeeds (with the spec-modelled JPEG
encoder, which rejects degenerate rasters), the reported width and height
are positive, and the base64 payload of `data_url` decodes back to the
encoded byte stream, which the image decoder loads as a raster of exactly
the reported dimensions. -/
theorem C4_success_invariants :
    ∀ (env : Env) (path : String) (r : ThumbnailResponse),
      env.encodeJpeg = specEncodeJpeg →
      get_thumbnail env path = Except.ok r →
      0 < r.width ∧ 0 < r.height ∧
      ∃ bs img2, r.data_url = "data:image/jpeg;base64," ++ b64Encode bs ∧
        b64DecodeCore (b64Encode bs).data = bs ∧
        specDecode bs = Except.ok img2 ∧
        img2.width = r.width ∧ img2.height = r.height := by
  intro env path r henc hok
  obtain ⟨raw, img, bytes, ho, hd, he, hr⟩ := get_thumbnail_ok_elim hok
  rw [henc] at he
  have hdims := specEncodeJpeg_ok_dims he
  have hdec2 := specDecode_specEncode he
  subst hr
  refine ⟨by show (0 : Nat) < 100; decide, hdims.2.1, bytes,
    resize_exact env img 100 (newHeightF img.width img.height), rfl, ?_, hdec2, rfl, rfl⟩
  exact b64Decode_encode bytes

/-- C4 (witness): the invariant applied to the concrete 1 × 7 pipeline. -/
theorem C4_success_invariants_witness : 0 < tallResponse.height :=
  (C4_success_invariants envTall "/photos/tall.png" tallResponse rfl (by decide)).2.1

/-- C5: the pipeline is fail-fast and swallows nothing — an open failure
is returned with the load-stage prefix, whatever the later stages would
do; a decode failure after a successful open is returned with the
decode-stage prefix; an encode failure is returned with the encode-stage
prefix; every error a call can return carries exactly one of the three
stage prefixes, so the message identifies the failing stage (resize,
returning no `Result`, has no failure to report). -/
theorem C5_fail_fast_propagation :
    (∀ (env : Env) (path e : String), env.openPath path = Except.error e →
        get_thumbnail env path = Except.error ("Failed to open image: " ++ e)) ∧
    (∀ (env : Env) (path e : String) (raw : List Byte),
        env.openPath path = Except.ok raw → env.decodeBytes raw = Except.error e →
        get_thumbnail env path = Except.error ("Failed to decode image: " ++ e)) ∧
    (∀ (env : Env) (path e : String) (raw : List Byte) (img : Img),
        env.openPath path = Except.ok raw → env.decodeBytes raw = Except.ok img →
        env.encodeJpeg (resize_exact env img 100 (newHeightF img.width img.height)) =
          Except.error e →
        get_thumbnail env path = Except.error ("Failed to encode thumbnail: " ++ e)) ∧
    (∀ (env : Env) (path m : String), get_thumbnail env path = Except.error m →
        isLoadErr m = true ∨ isDecodeErr m = true ∨ isEncodeErr m = true) ∧
    (∀ m : String,
        (isLoadErr m = true → isDecodeErr m = false ∧ isEncodeErr m = false) ∧
        (isDecodeErr m = true → isLoadErr m = false ∧ isEncodeErr m = false) ∧
        (isEncodeErr m = true → isLoadErr m = false ∧ isDecodeErr m = false)) := by
  refine ⟨?_, ?_, ?_, ?_, stage_excl⟩
  · intro env path e h
    exact get_thumbnail_open_err h
  · intro env path e raw ho hd
    exact get_thumbnail_decode_err ho hd
  · intro env path e raw img ho hd he
    exact get_thumbnail_encode_err ho hd he
  · intro env path m h
    exact get_thumbnail_err_elim h

/-- C5 (witness): the load-failure clause applied to the concrete
environment whose file system refuses every path. -/
theorem C5_fail_fast_propagation_witness :
    get_thumbnail envMissing "/x.png" =
      Except.error ("Failed to open image: " ++ "No such file or directory (os error 2)") :=
  C5_fail_fast_propagation.1 envMissing "/x.png" "No such file or directory (os error 2)" rfl

/-- C6: every successful result's `data_url` is the literal prefix
`data:image/jpeg;base64,` followed by the standard, padded base64
encoding of exactly the byte stream produced by the encoding step, and
that payload is syntactically valid base64. -/
theorem C6_data_url_is_data_uri :
    ∀ (env : Env) (path : String) (r : ThumbnailResponse),
      get_thumbnail env path = Except.ok r →
      ∃ img bytes,
        decodePipeline env path = Except.ok img ∧
        env.encodeJpeg (resize_exact env img 100 (newHeightF img.width img.height)) =
          Except.ok bytes ∧
        r.data_url = "data:image/jpeg;base64," ++ b64Encode bytes ∧
        isB64Valid (b64Encode bytes) = true := by
  intro env path r hok
  obtain ⟨raw, img, bytes, ho, hd, he, hr⟩ := get_thumbnail_ok_elim hok
  refine ⟨img, bytes, ?_, he, ?_, ?_⟩
  · unfold decodePipeline
    rw [ho]
    dsimp only
    exact hd
  · rw [hr]
  · exact b64ChunksOk_encode bytes

/-- C6 (witness): the format theorem applied to the concrete 1 × 7
pipeline. -/
theorem C6_data_url_is_data_uri_witness :
    ∃ img bytes,
      decodePipeline envTall "/photos/tall.png" = Except.ok img ∧
      envTall.encodeJpeg (resize_exact envTall img 100 (newHeightF img.width img.height)) =
        Except.ok bytes ∧
      tallResponse.data_url = "data:image/jpeg;base64," ++ b64Encode bytes ∧
      isB64Valid (b64Encode bytes) = true :=
  C6_data_url_is_data_uri envTall "/photos/tall.png" tallResponse (by decide)

/-- C7: the reported geometry is a function of the decoded raster's
dimensions alone: any two calls (same or different environments and
paths) whose load-and-decode stages produce rasters of equal dimensions
report equal `(width, height)`; in particular two calls on the same
unmodified file do. -/
theorem C7_geometry_deterministic :
    ∀ (env1 env2 : Env) (path1 path2 : String) (img1 img2 : Img)
      (r1 r2 : ThumbnailResponse),
      decodePipeline env1 path1 = Except.ok img1 →
      decodePipeline env2 path2 = Except.ok img2 →
      img1.width = img2.width → img1.height = img2.height →
      get_thumbnail env1 path1 = Except.ok r1 →
      get_thumbnail env2 path2 = Except.ok r2 →
      r1.width = r2.width ∧ r1.height = r2.height := by
  intro env1 env2 path1 path2 img1 img2 r1 r2 hdec1 hdec2 hw hh hok1 hok2
  obtain ⟨raw1, i1, b1, ho1, hd1, he1, hr1⟩ := get_thumbnail_ok_elim hok1
  obtain ⟨raw2, i2, b2, ho2, hd2, he2, hr2⟩ := get_thumbnail_ok_elim hok2
  unfold decodePipeline at hdec1 hdec2
  rw [ho1] at hdec1
  dsimp only at hdec1
  rw [ho2] at hdec2
  dsimp only at hdec2
  have h1 : i1 = img1 := Except.ok.inj (hd1.symm.trans hdec1)
  have h2 : i2 = img2 := Except.ok.inj (hd2.symm.trans hdec2)
  subst h1
  subst h2
  rw [hr1, hr2]
  refine ⟨rfl, ?_⟩
  show newHeightF i1.width i1.height = newHeightF i2.width i2.height
  rw [hw, hh]

/-- C7 (witness): two calls on the same unmodified concrete file report
identical geometry. -/
theorem C7_geometry_deterministic_witness :
    tallResponse.width = tallResponse.width ∧ tallResponse.height = tallResponse.height :=
  C7_geometry_deterministic envTall envTall "/photos/tall.png" "/photos/tall.png"
    ⟨1, 7, []⟩ ⟨1, 7, []⟩ tallResponse tallResponse
    (by decide) (by decide) rfl rfl (by decide) (by decide)

/-- C8 (counterexample): with an opener that fails on every path,
`open_file_folder` on the ordinary path `/etc/hosts` (whose parent is
`/etc`, so the opener is reached and fails) returns normally instead of
aborting — refuting the claim that each Path Opener entry point treats an
OS open failure as an unrecoverable abort. -/
theorem C8_counterexample :
    open_file_folder (fun _ => Except.error "Permission denied") "/etc/hosts" =
      ProcOutcome.normal ∧
    pathParent "/etc/hosts" = some "/etc" := by
  refine ⟨by decide, by decide⟩

/-- C8 (amended): only `open_file` treats an opener failure as an
unrecoverable abort (the `.unwrap()` panic); `open_file_folder` instead
discards the opener's result (`let _ = ...`) and returns normally on
every input, failure included. -/
theorem C8_opener_failure_behavior :
    (∀ (opener : String → Except String Unit) (path e : String),
        opener path = Except.error e → open_file opener path = ProcOutcome.panicked) ∧
    (∀ (opener : String → Except String Unit) (path : String),
        open_file_folder opener path = ProcOutcome.normal) := by
  constructor
  · intro opener path e h
    unfold open_file
    rw [h]
  · intro opener path
    unfold open_file_folder
    cases pathParent path with
    | none => rfl
    | some parent => cases opener parent <;> rfl

/-- C8 (witness): the amended behaviour at a concrete failing opener. -/
theorem C8_opener_failure_behavior_witness :
    open_file (fun _ => Except.error "Permission denied") "/etc/hosts" =
      ProcOutcome.panicked ∧
    open_file_folder (fun _ => Except.error "Permission denied") "/etc/hosts" =
      ProcOutcome.normal :=
  ⟨C8_opener_failure_behavior.1 (fun _ => Except.error "Permission denied") "/etc/hosts"
      "Permission denied" rfl,
   C8_opener_failure_behavior.2 (fun _ => Except.error "Permission denied") "/etc/hosts"⟩

/-- C9: the two drafts of the pipeline — `get_thumbnail` in commands.rs
and `get_thumbnail2` in main.rs — agree on every environment and path:
same success or failure, same error message, same response. -/
theorem C9_duplicate_drafts_equal :
    ∀ (env : Env) (path : String), get_thumbnail env path = get_thumbnail2 env path := by
  intro env path
  rfl

/-- C10: when no parent directory can be derived (`Path::parent` is
`None`, e.g. for the root path), `open_file_folder` returns normally and
its behaviour is independent of the opener (the opener is never reached);
and when the parent exists but the opener fails, the failure is discarded
and the call still returns normally. -/
theorem C10_open_file_folder_total :
    (∀ (opener : String → Except String Unit) (path : String),
        pathParent path = none → open_file_folder opener path = ProcOutcome.normal) ∧
    (∀ (opener opener2 : String → Except String Unit) (path : String),
        pathParent path = none →
        open_file_folder opener path = open_file_folder opener2 path) ∧
    (∀ (opener : String → Except String Unit) (path p e : String),
        pathParent path = some p → opener p = Except.error e →
        open_file_folder opener path = ProcOutcome.normal) ∧
    pathParent "/" = none := by
  refine ⟨?_, ?_, ?_, by decide⟩
  · intro opener path h
    unfold open_file_folder
    rw [h]
  · intro opener opener2 path h
    unfold open_file_folder
    rw [h]
  · intro opener path p e hp he
    unfold open_file_folder
    rw [hp]

/-- C10 (witness): the theorem applied at the root path and at a concrete
path with a failing opener. -/
theorem C10_open_file_folder_total_witness :
    open_file_folder (fun _ => Except.error "denied") "/" = ProcOutcome.normal ∧
    open_file_folder (fun _ => Except.error "denied") "/a/b" = ProcOutcome.normal :=
  ⟨C10_open_file_folder_total.1 (fun _ => Except.error "denied") "/" (by decide),
   C10_open_file_folder_total.2.2.1 (fun _ => Except.error "denied") "/a/b" "/a" "denied"
     (by decide) rfl⟩
